import Mathlib

/-!
# Verification of the YOLO model manager orchestration logic

Shallow embedding of the repository `jetsonhacks/yolo-model-manager`
(files `model_manager/core/model_manager.py`,
`model_manager/core/worker_threads.py`,
`model_manager/ui/model_manager_window.py`).

Modelling conventions:
* The filesystem is a list of existing file paths (`List String`);
  membership is existence.  Directories are not modelled (directory
  creation such as `weights_dir.mkdir` does not affect the existence of
  the files the claims speak about).
* Filesystem paths are plain strings; `pathlib`'s `/` join of a base
  with a non-absolute operand is string concatenation with `"/"`, and an
  absolute right operand replaces the base, as in `pathlib`.
  `Path.resolve()`'s symlink/`..` normalisation is abstracted away (the
  paths involved are already absolute where it matters);
  `os.path.isabs` is "first character is `/`" as on POSIX.
* The external delegates (the `ultralytics` retrieval call, the `yolo
  export` subprocess, the GPU / TensorRT probes, `tempfile`'s fresh
  name, `pathlib`'s `parent`) are oracles supplied as inputs.
* Qt signal emissions are collected into result records: the terminal
  `*_complete` / `done` payload and the ordered list of `output` lines.
-/

namespace ModelManagerRepo

/-- Existing files: a path exists iff it is a member of the list. -/
abbrev FS := List String

/-- Python's substring test `sub in s` (`worker` and UI code use it on
model identifiers and button texts). -/
def strContains (s sub : String) : Bool :=
  decide (sub.toList <:+: s.toList)

/-- `os.path.isabs`: the path starts with `/` (POSIX). -/
def isAbsPath (s : String) : Bool :=
  decide (s.toList.head? = some '/')

/-- Python `s.endswith(suffix)`, as a suffix test on the character
list. -/
def strEndsWith (s suffix : String) : Bool :=
  decide (suffix.toList <:+ s.toList)

/-- Drop the last `n` characters of a string. -/
def strDropRight (s : String) (n : Nat) : String :=
  String.mk (s.toList.take (s.toList.length - n))

/-- `pathlib`'s `base / p`: an absolute right operand replaces the base,
otherwise the operands are joined with `/`. -/
def pJoin (base p : String) : String :=
  if isAbsPath p then p else base ++ "/" ++ p

/-! ## `model_manager/core/model_manager.py` -/

/-- `ModelManager.model_file_path` (model_manager.py lines 44-46):
appends `.pt` unless the name already ends with it, under the weights
directory. -/
def model_file_path (weightsDir model : String) : String :=
  if strEndsWith model ".pt" then weightsDir ++ "/" ++ model
  else weightsDir ++ "/" ++ model ++ ".pt"

set_option linter.unusedVariables false in
/-- `ModelManager.is_model_downloaded` (model_manager.py lines 48-50):
the `version` argument is accepted and ignored; the answer is the
existence of the weight file. -/
def is_model_downloaded (fs : FS) (weightsDir version model : String) : Bool :=
  decide (model_file_path weightsDir model ∈ fs)

/-- `Path(name).stem` for a name ending in `.pt` (pathlib keeps a name
whose only content is the suffix, e.g. `".pt"`, unchanged). -/
def ptStem (name : String) : String :=
  if strEndsWith name ".pt" && decide (3 < name.toList.length) then strDropRight name 3 else name

/-- `ModelManager.get_engine_path` (model_manager.py lines 37-39):
`weights_dir / "<stem>-<precision>.engine"`. -/
def get_engine_path (weightsDir model precision : String) : String :=
  let name := if strEndsWith model ".pt" then model else model ++ ".pt"
  weightsDir ++ "/" ++ ptStem name ++ "-" ++ precision ++ ".engine"

/-- `ModelManager.engine_exists` (model_manager.py lines 41-42). -/
def engine_exists (fs : FS) (weightsDir model precision : String) : Bool :=
  decide (get_engine_path weightsDir model precision ∈ fs)

/-! ## `ModelDownloadWorker.run` (worker_threads.py lines 44-74) -/

/-- Terminal payload and observable effects of one download-task run:
the `download_complete(bool, str)` payload, the emitted `output` lines,
and the filesystem after the run. -/
structure DownloadResult where
  success : Bool
  message : String
  outputs : List String
  fs : FS
deriving DecidableEq

/-- Behaviour of the external retrieval call `YOLO(str(model_path))`:
it either returns with some resulting filesystem or raises with a
message, leaving some filesystem. -/
inductive RetrieveOutcome where
  | ok (fs : FS)
  | err (msg : String) (fs : FS)
deriving DecidableEq

/-- `ModelDownloadWorker.run` (worker_threads.py lines 44-74), with the
external retrieval call's behaviour supplied as `delegate`.  After a
normal return the outcome is decided solely by `model_path.exists()`;
an exception is caught and reported as failure with its message. -/
def modelDownloadRun (weightsDir modelName : String)
    (delegate : RetrieveOutcome) : DownloadResult :=
  let modelPath := weightsDir ++ "/" ++ modelName ++ ".pt"
  let outs0 := ["Starting to download model " ++ modelName ++ "..."]
  match delegate with
  | .ok fs1 =>
    if modelPath ∈ fs1 then
      { success := true
        message := "Download successful."
        outputs := outs0 ++
          ["Download of " ++ modelName ++ " complete and stored at " ++ modelPath ++ "."]
        fs := fs1 }
    else
      { success := false
        message := "Download failed."
        outputs := outs0 ++ ["Download failed. Model file not found."]
        fs := fs1 }
  | .err m fs1 =>
    { success := false
      message := m
      outputs := outs0 ++ ["An error occurred during download: " ++ m]
      fs := fs1 }

/-- Modelled from the spec: the external retrieval mechanism (the
`ultralytics` `YOLO` constructor) is not part of this repository; §6
describes it as "construct with a target path; downloads if absent;
raises on failure", and §4.2 notes it "is expected to skip work if the
weight file is already present".  `failure = some m` injects a raising
run; when the target is already present the call is a no-op. -/
def retrieveModel (fs : FS) (target : String) (failure : Option String) :
    RetrieveOutcome :=
  if target ∈ fs then .ok fs
  else
    match failure with
    | none => .ok (target :: fs)
    | some m => .err m fs

/-! ## Task-category classification (model_manager_window.py lines 357-408) -/

/-- The five task categories of `_update_tasks`. -/
inductive TaskCat where
  | detection
  | segmentation
  | pose
  | obb
  | classification
deriving DecidableEq, Fintype

/-- Position of a category in the fixed priority list
`["Detection", "Segmentation", "Pose", "OBB", "Classification"]` used
as the sort key in `_update_tasks` (lines 372-379). -/
def taskIndex : TaskCat → Nat
  | .detection => 0
  | .segmentation => 1
  | .pose => 2
  | .obb => 3
  | .classification => 4

/-- The sort-key order of `_update_tasks`. -/
def taskLE (a b : TaskCat) : Prop := taskIndex a ≤ taskIndex b

instance : DecidableRel taskLE := fun a b => by
  unfold taskLE; infer_instance

instance : IsTotal TaskCat taskLE :=
  ⟨fun a b => Nat.le_total (taskIndex a) (taskIndex b)⟩

instance : IsTrans TaskCat taskLE :=
  ⟨fun _ _ _ h1 h2 => Nat.le_trans h1 h2⟩

instance : IsAntisymm TaskCat taskLE :=
  ⟨by intro a b h1 h2; revert h1 h2; revert a b; decide⟩

/-- The per-identifier classification of `_update_tasks`
(model_manager_window.py lines 361-371): `-pose`, then `-seg`, then
`-obb`, then `-cls` are tested in that order; no suffix means
detection. -/
def classifyTask (m : String) : TaskCat :=
  if strContains m "-pose" then .pose
  else if strContains m "-seg" then .segmentation
  else if strContains m "-obb" then .obb
  else if strContains m "-cls" then .classification
  else .detection

/-- The fixed category order of the selector. -/
def fixedTaskOrder : List TaskCat :=
  [.detection, .segmentation, .pose, .obb, .classification]

/-- `_update_tasks` (model_manager_window.py lines 357-383): classify
every identifier of the selected version, deduplicate (Python's
`set`), and sort by the fixed priority index (Python's `sorted` with
the index key; the keys of the deduplicated categories are distinct, so
the result is independent of the set's iteration order). -/
def updateTasks (models : List String) : List TaskCat :=
  List.insertionSort taskLE (models.map classifyTask).dedup

/-! ## `_update_model_status` (model_manager_window.py lines 410-475) -/

/-- `status_icon(ok).text()` (model_manager_window.py lines 44-53). -/
def statusIconText (ok : Bool) : String :=
  let icon := if ok then "✔" else "✘"
  let color := if ok then "#27ae60" else "#c0392b"
  "<span style=\"font-size: 18px; color:" ++ color ++
    "; font-weight:bold;\">" ++ icon ++ "</span>"

/-- `status_markup` (model_manager_window.py lines 63-68). -/
def statusMarkup (present : Bool) : String :=
  let icon := if present then "✔" else "✘"
  let text := if present then "Built" else "Needs Building"
  let color := if present then "#27ae60" else "#c0392b"
  "<span style=\"color:" ++ color ++ "; font-size:18px;\">" ++ icon ++
    "</span> <span style=\"font-weight:600; color:black;\">" ++ text ++ "</span>"

/-- Widget state written by one `_update_model_status` call.  Fields of
type `Option String` are widget texts the call sometimes leaves
untouched (`none` = not assigned by this refresh, the widget keeps its
previous value); the enabled flags and status labels are assigned on
every path. -/
structure StatusView where
  statusLabel : String
  downloadText : Option String
  downloadEnabled : Bool
  fp32Label : String
  fp32Text : Option String
  fp32Enabled : Bool
  fp16Label : String
  fp16Text : Option String
  fp16Enabled : Bool
  int8Label : String
  int8Text : Option String
  int8Enabled : Bool
  fp32Tooltip : Option String
  fp16Tooltip : Option String
  int8Tooltip : Option String
deriving DecidableEq

/-- `ModelManagerWindow._update_model_status` (model_manager_window.py
lines 410-475).  `model` is `model_combo.currentText()` (empty string =
no selection; `self.model_manager` is always set in `__init__`);
`gpuAvailable` / `trtInstalled` are the two external probes
`is_gpu_available()` and `is_tensorrt_installed()`;
`calibrationYamlPath` is `self.calibration_yaml_path`.  The version
passed to `is_model_downloaded` is the hardcoded `"Yolov8"`
(line 424). -/
def updateModelStatus (fs : FS) (weightsDir model : String)
    (gpuAvailable trtInstalled : Bool)
    (calibrationYamlPath : Option String) : StatusView :=
  if model = "" then
    { statusLabel := ""
      downloadText := none
      downloadEnabled := false
      fp32Label := statusMarkup false
      fp32Text := none
      fp32Enabled := false
      fp16Label := statusMarkup false
      fp16Text := none
      fp16Enabled := false
      int8Label := statusMarkup false
      int8Text := none
      int8Enabled := false
      fp32Tooltip := none
      fp16Tooltip := none
      int8Tooltip := none }
  else
    let isDownloaded := is_model_downloaded fs weightsDir "Yolov8" model
    let isGpuOk := gpuAvailable && trtInstalled
    let fp32Built := engine_exists fs weightsDir model "fp32"
    let fp16Built := engine_exists fs weightsDir model "fp16"
    let canBuild := isDownloaded && isGpuOk
    let int8Built := engine_exists fs weightsDir model "int8"
    let int8BtnText := if int8Built then "Rebuild" else "Build"
    let canBuildInt8 := isDownloaded && isGpuOk && calibrationYamlPath.isSome
    let gpuTip :=
      "Building a TensorRT engine requires a CUDA-enabled GPU and TensorRT to be installed."
    let dlTip := "Please download the model first before building an engine."
    let tips :=
      if !isGpuOk then (some gpuTip, some gpuTip, some gpuTip)
      else if !isDownloaded then (some dlTip, some dlTip, some dlTip)
      else if strContains int8BtnText "INT8" && calibrationYamlPath.isNone then
        (none, none, some "Select a calibration YAML to enable INT8 build.")
      else (none, none, none)
    { statusLabel :=
        statusIconText isDownloaded ++ " " ++
          (if isDownloaded then "Downloaded" else "Not Downloaded")
      downloadText := some (if isDownloaded then "Re-download Model" else "Download Model")
      downloadEnabled := true
      fp32Label := statusMarkup fp32Built
      fp32Text := some (if fp32Built then "Rebuild" else "Build")
      fp32Enabled := canBuild
      fp16Label := statusMarkup fp16Built
      fp16Text := some (if fp16Built then "Rebuild" else "Build")
      fp16Enabled := canBuild
      int8Label := statusMarkup int8Built
      int8Text := some int8BtnText
      int8Enabled := canBuildInt8
      fp32Tooltip := tips.1
      fp16Tooltip := tips.2.1
      int8Tooltip := tips.2.2 }

/-! ## `EngineExportWorker.run` (worker_threads.py lines 96-204) -/

/-- Contents of a calibration YAML descriptor: the optional `path`,
`train` and `val` keys the worker rewrites (lines 136-141). -/
structure Yaml where
  path : Option String
  train : Option String
  val : Option String
deriving DecidableEq

/-- Environment of one `EngineExportWorker.run` call: the filesystem,
the YAML contents of descriptor files, and the oracles for the
external pieces (`pathlib`'s `parent`, `tempfile`'s fresh name, and the
`yolo export` subprocess behaviour: whether `Popen`/streaming raises,
the exit code, which lines it writes, and whether it produces the
generic `<stem>.engine` artifact). -/
structure ExportEnv where
  weightsDir : String
  fs : FS
  yamlFiles : String → Yaml
  dirOf : String → String
  tempName : String
  procRaises : Option String
  procLines : List String
  procExit : Int
  procCreatesEngine : Bool

/-- Terminal payload and observable effects of one compile-task run:
the `done(bool, str, str, str)` payload, the emitted `output` lines,
the filesystem after the run, whether the subprocess was started and
with which command line, and every YAML file write performed. -/
structure ExportResult where
  success : Bool
  model : String
  precision : String
  message : String
  outputs : List String
  fs : FS
  procStarted : Bool
  cmdRun : Option (List String)
  yamlWrites : List (String × Yaml)
deriving DecidableEq

/-- A failure outcome reached before the subprocess is started
(the two `raise` statements of lines 103-106 and 127-129, caught at
lines 196-198 which emit `Error: <msg>` and `done(False, …, msg)`). -/
def exportError (fs : FS) (modelName precision msg : String)
    (outs : List String) : ExportResult :=
  { success := false
    model := modelName
    precision := precision
    message := msg
    outputs := outs ++ ["Error: " ++ msg]
    fs := fs
    procStarted := false
    cmdRun := none
    yamlWrites := [] }

/-- Filesystem once the subprocess has run: the process oracle may have
produced the generic `<stem>.engine` artifact. -/
def procFsAfter (env : ExportEnv) (modelName : String) (fsPre : FS) : FS :=
  if env.procCreatesEngine then (env.weightsDir ++ "/" ++ modelName ++ ".engine") :: fsPre
  else fsPre

/-- The subprocess phase of `EngineExportWorker.run` (worker_threads.py
lines 152-194): run `yolo export`, stream its lines, then on exit code
0 look for the generic `<stem>.engine` and rename it to
`<stem>-<precision>.engine`; a non-zero exit code is a failure.  An
exception while running the process is caught by the generic handler
(lines 199-201).  `fsPre` is the filesystem when the process starts and
`tw` the YAML writes performed so far. -/
def exportProcPhase (env : ExportEnv) (modelName precision : String)
    (cmd : List String) (outs : List String) (fsPre : FS)
    (tw : List (String × Yaml)) : ExportResult :=
  match env.procRaises with
  | some m =>
    { success := false
      model := modelName
      precision := precision
      message := m
      outputs := outs ++ ["An unexpected error occurred: " ++ m]
      fs := fsPre
      procStarted := true
      cmdRun := some cmd
      yamlWrites := tw }
  | none =>
    let fs1 := procFsAfter env modelName fsPre
    let outs1 := outs ++ env.procLines
    let generic := env.weightsDir ++ "/" ++ modelName ++ ".engine"
    if env.procExit = 0 then
      if generic ∈ fs1 then
        let newName := modelName ++ "-" ++ precision ++ ".engine"
        { success := true
          model := modelName
          precision := precision
          message := "Engine build successful."
          outputs := outs1 ++ ["Engine build successful. Renamed to " ++ newName ++ "."]
          fs := (env.weightsDir ++ "/" ++ newName) :: fs1.filter (fun q => q != generic)
          procStarted := true
          cmdRun := some cmd
          yamlWrites := tw }
      else
        { success := false
          model := modelName
          precision := precision
          message := "Failed to create TensorRT engine."
          outputs := outs1 ++ ["Engine build failed. Engine file not found."]
          fs := fs1
          procStarted := true
          cmdRun := some cmd
          yamlWrites := tw }
    else
      { success := false
        model := modelName
        precision := precision
        message := "Engine build failed."
        outputs := outs1 ++
          ["Engine build failed with exit code " ++ toString env.procExit ++ "."]
        fs := fs1
        procStarted := true
        cmdRun := some cmd
        yamlWrites := tw }

/-- Resolution of the calibration descriptor (worker_threads.py lines
131-141): `path` is joined with the descriptor's directory
unconditionally; `train` and `val` are joined only when they are not
already absolute. -/
def resolveCalib (d0 : Yaml) (yamlDir : String) : Yaml :=
  let d1 := match d0.path with
    | some q => { d0 with path := some (pJoin yamlDir q) }
    | none => d0
  let d2 := match d1.train with
    | some q => if isAbsPath q then d1 else { d1 with train := some (pJoin yamlDir q) }
    | none => d1
  match d2.val with
  | some q => if isAbsPath q then d2 else { d2 with val := some (pJoin yamlDir q) }
  | none => d2

/-- The `try` body of `EngineExportWorker.run` (worker_threads.py lines
99-201), returning the result together with the `temp_yaml_file`
variable (set only once the temporary resolved calibration copy has
been created). -/
def exportBody (env : ExportEnv) (modelName precision device : String)
    (calibrationYamlPath : Option String) : ExportResult × Option String :=
  let modelPath := env.weightsDir ++ "/" ++ modelName ++ ".pt"
  if modelPath ∈ env.fs then
    let startLine := "Starting to build TensorRT engine for " ++ modelName ++
      " at " ++ precision ++ " precision..."
    let cmd0 := ["yolo", "export", "model=" ++ modelPath, "format=engine",
      "device=" ++ device]
    if precision = "fp16" then
      (exportProcPhase env modelName precision (cmd0 ++ ["half"]) [startLine]
        env.fs [], none)
    else if precision = "int8" then
      match calibrationYamlPath with
      | none =>
        (exportError env.fs modelName precision
          "INT8 calibration requires a valid calibration YAML file to be selected."
          [startLine], none)
      | some p =>
        if p ∈ env.fs then
          let d3 := resolveCalib (env.yamlFiles p) (env.dirOf p)
          (exportProcPhase env modelName precision
            (cmd0 ++ ["int8", "data=" ++ env.tempName]) [startLine]
            (env.tempName :: env.fs) [(env.tempName, d3)], some env.tempName)
        else
          (exportError env.fs modelName precision
            "INT8 calibration requires a valid calibration YAML file to be selected."
            [startLine], none)
    else
      (exportProcPhase env modelName precision cmd0 [startLine] env.fs [], none)
  else
    (exportError env.fs modelName precision
      ("Model file not found at " ++ modelPath ++ ". Please download the model first.")
      [], none)

/-- The `finally` clause (worker_threads.py lines 202-204): remove the
temporary calibration file if it was created and still exists. -/
def exportFinally (r : ExportResult) (tempVar : Option String) : ExportResult :=
  match tempVar with
  | none => r
  | some t => if t ∈ r.fs then { r with fs := r.fs.filter (fun q => q != t) } else r

/-- `EngineExportWorker.run` (worker_threads.py lines 96-204): the
`try` body followed by the `finally` cleanup. -/
def engineExportRun (env : ExportEnv) (modelName precision device : String)
    (calibrationYamlPath : Option String) : ExportResult :=
  let br := exportBody env modelName precision device calibrationYamlPath
  exportFinally br.1 br.2

/-! ### Concrete environments for evaluation -/

/-- A calibration descriptor with relative `train` and `val` entries. -/
def sampleYaml : Yaml :=
  { path := none, train := some "images/train", val := some "images/val" }

/-- Weight file and calibration descriptor present; the subprocess
succeeds and produces the generic artifact. -/
def envOk : ExportEnv :=
  { weightsDir := "/w"
    fs := ["/w/m.pt", "/data/calib.yaml"]
    yamlFiles := fun _ => sampleYaml
    dirOf := fun _ => "/data"
    tempName := "/tmp/tmp123.yaml"
    procRaises := none
    procLines := ["export log line"]
    procExit := 0
    procCreatesEngine := true }

/-- Like `envOk` but the subprocess exits with code 1 and produces no
artifact. -/
def envFail : ExportEnv :=
  { envOk with procExit := 1, procCreatesEngine := false }

/-- Like `envOk` but the weight file is absent. -/
def envNoWeight : ExportEnv :=
  { envOk with fs := [] }

/-! ## Theorems -/

/-- C10: `is_model_downloaded` is independent of its version argument —
for any two version strings the result is equal, and (for the
identifiers the catalog holds, which do not end in `.pt`) it is exactly
the existence of `<model>.pt` in the weights directory. -/
theorem is_model_downloaded_version_independent
    (fs : FS) (weightsDir v1 v2 model : String) :
    is_model_downloaded fs weightsDir v1 model
        = is_model_downloaded fs weightsDir v2 model
    ∧ (strEndsWith model ".pt" = false →
        is_model_downloaded fs weightsDir v1 model
          = decide ((weightsDir ++ "/" ++ model ++ ".pt") ∈ fs)) := by
  refine ⟨rfl, fun h => ?_⟩
  simp [is_model_downloaded, model_file_path, h]

/-- Witness for `is_model_downloaded_version_independent` at a concrete
input. -/
theorem is_model_downloaded_version_independent_witness :
    strEndsWith "m" ".pt" = false
    ∧ is_model_downloaded ["w/m.pt"] "w" "v1" "m"
        = decide (("w" ++ "/" ++ "m" ++ ".pt") ∈ (["w/m.pt"] : FS)) :=
  ⟨by decide,
   (is_model_downloaded_version_independent ["w/m.pt"] "w" "v1" "v2" "m").2 (by decide)⟩

/-- C1: for a download-task run, if the delegate returns without
raising, the terminal outcome is success iff `<identifier>.pt` exists
in the weights directory after the call; if the delegate raises, the
outcome is failure with the exception's message; and (with the
retrieval mechanism modelled from the spec as skipping work when the
target is present) a weight file that exists before invocation yields
success. -/
theorem downloadTask_outcome (weightsDir modelName em : String)
    (fs0 fs1 : FS) (failure : Option String) :
    ((modelDownloadRun weightsDir modelName (.ok fs1)).success = true
        ↔ (weightsDir ++ "/" ++ modelName ++ ".pt") ∈ fs1)
    ∧ (modelDownloadRun weightsDir modelName (.err em fs1)).success = false
    ∧ (modelDownloadRun weightsDir modelName (.err em fs1)).message = em
    ∧ ((weightsDir ++ "/" ++ modelName ++ ".pt") ∈ fs0 →
        (modelDownloadRun weightsDir modelName
            (retrieveModel fs0 (weightsDir ++ "/" ++ modelName ++ ".pt") failure)).success
          = true) := by
  refine ⟨?_, ?_, ?_, ?_⟩
  · by_cases h : (weightsDir ++ "/" ++ modelName ++ ".pt") ∈ fs1 <;>
      simp [modelDownloadRun, h]
  · simp [modelDownloadRun]
  · simp [modelDownloadRun]
  · intro h
    simp [retrieveModel, h, modelDownloadRun]

/-- Witness for `downloadTask_outcome` at a concrete input: the weight
file is present before the run, and the run succeeds even though the
injected delegate would have raised on a real download. -/
theorem downloadTask_outcome_witness :
    ("w" ++ "/" ++ "m" ++ ".pt") ∈ (["w/m.pt"] : FS)
    ∧ (modelDownloadRun "w" "m"
        (retrieveModel ["w/m.pt"] ("w" ++ "/" ++ "m" ++ ".pt") (some "boom"))).success
      = true :=
  ⟨by decide,
   (downloadTask_outcome "w" "m" "boom" ["w/m.pt"] ["w/m.pt"] (some "boom")).2.2.2
     (by decide)⟩

/-- Every category occurs in the fixed selector order. -/
theorem mem_fixedTaskOrder (a : TaskCat) : a ∈ fixedTaskOrder := by
  cases a <;> simp [fixedTaskOrder]

/-- The category selector contents: sorting the deduplicated classified
categories by the fixed priority index yields exactly the fixed order
restricted to the categories present. -/
theorem updateTasks_eq_filter (models : List String) :
    updateTasks models
      = fixedTaskOrder.filter (fun t => decide (t ∈ models.map classifyTask)) := by
  have hnd : (fixedTaskOrder.filter (fun t => decide (t ∈ models.map classifyTask))).Nodup :=
    List.Nodup.filter _ (by decide)
  have hmem : ∀ a, a ∈ (models.map classifyTask).dedup ↔
      a ∈ fixedTaskOrder.filter (fun t => decide (t ∈ models.map classifyTask)) := by
    intro a
    simp only [List.mem_dedup, List.mem_filter, decide_eq_true_eq]
    exact ⟨fun h => ⟨mem_fixedTaskOrder a, h⟩, fun h => h.2⟩
  have hperm : List.Perm (updateTasks models)
      (fixedTaskOrder.filter (fun t => decide (t ∈ models.map classifyTask))) :=
    (List.perm_insertionSort taskLE _).trans
      ((List.perm_ext_iff_of_nodup (List.nodup_dedup _) hnd).mpr hmem)
  exact List.eq_of_perm_of_sorted hperm (List.sorted_insertionSort taskLE _)
    (List.Pairwise.filter _ (by decide : List.Sorted taskLE fixedTaskOrder))

/-- C7 counterexample: the identifier `yolov8n-pose-seg` contains the
substring `-seg` yet classifies as Pose (the `-pose` test comes first
in `_update_tasks`), so a version list holding it yields a selector
showing Pose, not Segmentation. -/
theorem classifyTask_seg_counterexample :
    strContains "yolov8n-pose-seg" "-seg" = true
    ∧ classifyTask "yolov8n-pose-seg" ≠ TaskCat.segmentation
    ∧ updateTasks ["yolov8n-pose-seg"] = [TaskCat.pose] := by
  decide

/-- C7 (amended): an identifier containing `-pose` classifies as Pose
even if it also contains `-seg`; an identifier containing `-seg` and
not `-pose` classifies as Segmentation; one containing none of the four
task suffixes classifies as Detection; and the selector always lists
the fixed order `[Detection, Segmentation, Pose, OBB, Classification]`
restricted to the categories present, duplicates removed. -/
theorem updateTasks_classification (models : List String) (m : String) :
    (strContains m "-pose" = true → classifyTask m = TaskCat.pose)
    ∧ (strContains m "-seg" = true → strContains m "-pose" = false →
        classifyTask m = TaskCat.segmentation)
    ∧ (strContains m "-pose" = false → strContains m "-seg" = false →
        strContains m "-obb" = false → strContains m "-cls" = false →
        classifyTask m = TaskCat.detection)
    ∧ updateTasks models
        = fixedTaskOrder.filter (fun t => decide (t ∈ models.map classifyTask)) := by
  refine ⟨?_, ?_, ?_, updateTasks_eq_filter models⟩
  · intro h1
    simp [classifyTask, h1]
  · intro h1 h2
    simp [classifyTask, h1, h2]
  · intro h1 h2 h3 h4
    simp [classifyTask, h1, h2, h3, h4]

/-- Witness for `updateTasks_classification` at concrete inputs: a
pose identifier that also contains `-seg`, a plain seg identifier, and
a concrete selector computation. -/
theorem updateTasks_classification_witness :
    strContains "yolov8n-pose-seg" "-pose" = true
    ∧ classifyTask "yolov8n-pose-seg" = TaskCat.pose
    ∧ strContains "yolov8n-seg" "-seg" = true
    ∧ strContains "yolov8n-seg" "-pose" = false
    ∧ classifyTask "yolov8n-seg" = TaskCat.segmentation
    ∧ updateTasks ["yolov8n", "yolov8n-seg"]
        = fixedTaskOrder.filter
            (fun t => decide (t ∈ (["yolov8n", "yolov8n-seg"].map classifyTask))) :=
  ⟨by decide,
   (updateTasks_classification ["yolov8n", "yolov8n-seg"] "yolov8n-pose-seg").1
     (by decide),
   by decide, by decide,
   (updateTasks_classification ["yolov8n", "yolov8n-seg"] "yolov8n-seg").2.1
     (by decide) (by decide),
   (updateTasks_classification ["yolov8n", "yolov8n-seg"] "yolov8n-seg").2.2.2⟩

/-- C4: after a state refresh with a model selected, the download
action is enabled regardless of the downloaded state; fp32 and fp16
build controls are enabled iff the weight file is downloaded AND a GPU
is available AND TensorRT is installed; the int8 control additionally
requires a calibration reference; and, the other three conditions
holding, setting a calibration reference flips only the int8 control
from disabled to enabled. -/
theorem updateModelStatus_enablement
    (fs : FS) (weightsDir model : String) (gpu trt : Bool)
    (calib : Option String) (p : String) (hm : model ≠ "") :
    (updateModelStatus fs weightsDir model gpu trt calib).downloadEnabled = true
    ∧ (updateModelStatus fs weightsDir model gpu trt calib).fp32Enabled
        = (is_model_downloaded fs weightsDir "Yolov8" model && (gpu && trt))
    ∧ (updateModelStatus fs weightsDir model gpu trt calib).fp16Enabled
        = (is_model_downloaded fs weightsDir "Yolov8" model && (gpu && trt))
    ∧ (updateModelStatus fs weightsDir model gpu trt calib).int8Enabled
        = (is_model_downloaded fs weightsDir "Yolov8" model && (gpu && trt)
            && calib.isSome)
    ∧ (is_model_downloaded fs weightsDir "Yolov8" model = true →
        gpu = true → trt = true →
        (updateModelStatus fs weightsDir model gpu trt none).int8Enabled = false
        ∧ (updateModelStatus fs weightsDir model gpu trt (some p)).int8Enabled = true
        ∧ updateModelStatus fs weightsDir model gpu trt (some p)
            = { updateModelStatus fs weightsDir model gpu trt none with
                  int8Enabled := true }) := by
  have hbtn : ∀ b : Bool, strContains (if b then "Rebuild" else "Build") "INT8" = false := by
    decide
  refine ⟨?_, ?_, ?_, ?_, ?_⟩
  · simp [updateModelStatus, hm]
  · simp [updateModelStatus, hm]
  · simp [updateModelStatus, hm]
  · simp [updateModelStatus, hm]
  · intro hd hg ht
    subst hg; subst ht
    refine ⟨?_, ?_, ?_⟩
    · simp [updateModelStatus, hm, hd]
    · simp [updateModelStatus, hm, hd]
    · simp [updateModelStatus, hm, hd, hbtn]

/-- Witness for `updateModelStatus_enablement` at a concrete input:
weights present, GPU and TensorRT available; adding a calibration
reference flips exactly the int8 enablement. -/
theorem updateModelStatus_enablement_witness :
    ("m" : String) ≠ ""
    ∧ is_model_downloaded ["/w/m.pt"] "/w" "Yolov8" "m" = true
    ∧ (updateModelStatus ["/w/m.pt"] "/w" "m" true true none).int8Enabled = false
    ∧ (updateModelStatus ["/w/m.pt"] "/w" "m" true true (some "/c.yaml")).int8Enabled
        = true
    ∧ updateModelStatus ["/w/m.pt"] "/w" "m" true true (some "/c.yaml")
        = { updateModelStatus ["/w/m.pt"] "/w" "m" true true none with
              int8Enabled := true } := by
  have h :=
    (updateModelStatus_enablement ["/w/m.pt"] "/w" "m" true true none "/c.yaml"
      (by decide)).2.2.2.2 (by decide) rfl rfl
  exact ⟨by decide, by decide, h.1, h.2.1, h.2.2⟩

/-- C9 (code bug): with a model selected, weights downloaded, GPU and
TensorRT available but no calibration reference set, the int8 build
control is disabled yet no rationale is surfaced: no tooltip is
assigned on this refresh, because the guard at
model_manager_window.py line 472 tests for `"INT8"` in the int8
button's text, and that text is always `"Build"` or `"Rebuild"`. -/
theorem int8_disabled_reason_not_surfaced :
    (updateModelStatus ["/w/m.pt"] "/w" "m" true true none).int8Enabled = false
    ∧ (updateModelStatus ["/w/m.pt"] "/w" "m" true true none).int8Tooltip = none
    ∧ (updateModelStatus ["/w/m.pt"] "/w" "m" true true none).fp32Tooltip = none
    ∧ (updateModelStatus ["/w/m.pt"] "/w" "m" true true none).fp16Tooltip = none
    ∧ (∀ b : Bool, strContains (if b then "Rebuild" else "Build") "INT8" = false) := by
  decide

/-! ### Helper lemmas about the export worker -/

/-- The `finally` cleanup changes only the filesystem. -/
theorem exportFinally_fields (r : ExportResult) (tv : Option String) :
    (exportFinally r tv).success = r.success
    ∧ (exportFinally r tv).message = r.message
    ∧ (exportFinally r tv).procStarted = r.procStarted
    ∧ (exportFinally r tv).outputs = r.outputs
    ∧ (exportFinally r tv).yamlWrites = r.yamlWrites := by
  cases tv with
  | none => exact ⟨rfl, rfl, rfl, rfl, rfl⟩
  | some t => by_cases h : t ∈ r.fs <;> simp [exportFinally, h]

/-- The temporary file named by the cleanup is gone afterwards. -/
theorem not_mem_exportFinally (r : ExportResult) (t : String) :
    t ∉ (exportFinally r (some t)).fs := by
  by_cases h : t ∈ r.fs
  · simp [exportFinally, h, List.mem_filter]
  · simp [exportFinally, h]

/-- The cleanup does not disturb membership of other paths. -/
theorem mem_exportFinally (r : ExportResult) (tv : Option String) (x : String)
    (hx : ∀ t, tv = some t → x ≠ t) :
    x ∈ (exportFinally r tv).fs ↔ x ∈ r.fs := by
  cases tv with
  | none => exact Iff.rfl
  | some t =>
    by_cases h : t ∈ r.fs
    · simp [exportFinally, h, List.mem_filter, hx t rfl]
    · simp [exportFinally, h]

/-- The subprocess phase reports exactly the YAML writes it is given. -/
theorem exportProcPhase_yamlWrites (env : ExportEnv) (mn prec : String)
    (cmd outs : List String) (fsPre : FS) (tw : List (String × Yaml)) :
    (exportProcPhase env mn prec cmd outs fsPre tw).yamlWrites = tw := by
  unfold exportProcPhase
  cases env.procRaises with
  | some m => rfl
  | none =>
    dsimp only
    repeat' split
    all_goals rfl

/-- C2: a compile task whose weight file is absent fails with the
prerequisite-missing message without starting the compiler subprocess;
an int8 task whose calibration reference is unset or names a missing
file fails with the validation message without starting the
subprocess. -/
theorem exportTask_preconditions (env : ExportEnv)
    (modelName precision device : String) (calib : Option String) :
    ((env.weightsDir ++ "/" ++ modelName ++ ".pt") ∉ env.fs →
      (engineExportRun env modelName precision device calib).success = false
      ∧ (engineExportRun env modelName precision device calib).procStarted = false
      ∧ (engineExportRun env modelName precision device calib).cmdRun = none
      ∧ (engineExportRun env modelName precision device calib).message
          = "Model file not found at " ++ (env.weightsDir ++ "/" ++ modelName ++ ".pt")
            ++ ". Please download the model first.")
    ∧ ((env.weightsDir ++ "/" ++ modelName ++ ".pt") ∈ env.fs → precision = "int8" →
        (∀ p, calib = some p → p ∉ env.fs) →
        (engineExportRun env modelName precision device calib).success = false
        ∧ (engineExportRun env modelName precision device calib).procStarted = false
        ∧ (engineExportRun env modelName precision device calib).cmdRun = none
        ∧ (engineExportRun env modelName precision device calib).message
            = "INT8 calibration requires a valid calibration YAML file to be selected.") := by
  constructor
  · intro h
    simp [engineExportRun, exportBody, h, exportError, exportFinally]
  · intro hm hp hc
    subst hp
    cases calib with
    | none => simp [engineExportRun, exportBody, hm, exportError, exportFinally]
    | some p =>
      have hcp : p ∉ env.fs := hc p rfl
      simp [engineExportRun, exportBody, hm, hcp, exportError, exportFinally]

/-- Witness for `exportTask_preconditions`: a missing weight file, and
an int8 request without a calibration reference. -/
theorem exportTask_preconditions_witness :
    (("/w" ++ "/" ++ "m" ++ ".pt") ∉ envNoWeight.fs
      ∧ (engineExportRun envNoWeight "m" "fp32" "cuda:0" none).success = false
      ∧ (engineExportRun envNoWeight "m" "fp32" "cuda:0" none).procStarted = false)
    ∧ (("/w" ++ "/" ++ "m" ++ ".pt") ∈ envOk.fs
      ∧ (engineExportRun envOk "m" "int8" "cuda:0" none).procStarted = false
      ∧ (engineExportRun envOk "m" "int8" "cuda:0" none).message
          = "INT8 calibration requires a valid calibration YAML file to be selected.") := by
  have h1 := (exportTask_preconditions envNoWeight "m" "fp32" "cuda:0" none).1 (by decide)
  have h2 := (exportTask_preconditions envOk "m" "int8" "cuda:0" none).2 (by decide) rfl
    (fun p hp => by cases hp)
  exact ⟨⟨by decide, h1.1, h1.2.1⟩, ⟨by decide, h2.2.1, h2.2.2.2⟩⟩

/-- C6: every int8 compile run that reaches the point of creating the
temporary resolved calibration copy (weight file present, calibration
reference set and existing) records the temporary name in
`temp_yaml_file`, and at the end of the run — whatever the subprocess
does: raise, succeed, fail, produce or not produce the artifact — the
temporary file no longer exists. -/
theorem exportTask_temp_cleanup (env : ExportEnv) (modelName device p : String)
    (hm : (env.weightsDir ++ "/" ++ modelName ++ ".pt") ∈ env.fs)
    (hp : p ∈ env.fs) :
    (exportBody env modelName "int8" device (some p)).2 = some env.tempName
    ∧ env.tempName ∉ (engineExportRun env modelName "int8" device (some p)).fs := by
  have hbody : (exportBody env modelName "int8" device (some p)).2 = some env.tempName := by
    simp [exportBody, hm, hp]
  refine ⟨hbody, ?_⟩
  have hrun : engineExportRun env modelName "int8" device (some p)
      = exportFinally (exportBody env modelName "int8" device (some p)).1
          (some env.tempName) := by
    rw [engineExportRun, hbody]
  rw [hrun]
  exact not_mem_exportFinally _ _

/-- Witness for `exportTask_temp_cleanup`: a concrete failing run (exit
code 1) still leaves no temporary file behind. -/
theorem exportTask_temp_cleanup_witness :
    ("/w" ++ "/" ++ "m" ++ ".pt") ∈ envFail.fs
    ∧ ("/data/calib.yaml" : String) ∈ envFail.fs
    ∧ envFail.tempName
        ∉ (engineExportRun envFail "m" "int8" "cuda:0" (some "/data/calib.yaml")).fs :=
  ⟨by decide, by decide,
   (exportTask_temp_cleanup envFail "m" "cuda:0" "/data/calib.yaml"
      (by decide) (by decide)).2⟩

/-- Prepending an absolute path keeps the result absolute. -/
theorem isAbsPath_append (a b : String) (h : isAbsPath a = true) :
    isAbsPath (a ++ b) = true := by
  unfold isAbsPath at h ⊢
  simp only [decide_eq_true_eq] at h ⊢
  have hab : (a ++ b).toList = a.toList ++ b.toList := by
    simp [String.toList]
  cases ha : a.toList with
  | nil => rw [ha] at h; simp at h
  | cons c cs =>
    rw [ha] at h
    simp only [List.head?_cons, Option.some.injEq] at h
    rw [hab, ha]
    simp [h]

/-- C5: an int8 run whose descriptor holds relative `train` and `val`
entries writes exactly one YAML file — the temporary copy — whose
`train` (resp. `val`) is the descriptor's own directory joined with the
relative value (absolute whenever the descriptor directory is
absolute); no write ever targets the original descriptor path. -/
theorem exportTask_calibration_resolution (env : ExportEnv)
    (modelName device p relT relV : String)
    (hm : (env.weightsDir ++ "/" ++ modelName ++ ".pt") ∈ env.fs)
    (hp : p ∈ env.fs)
    (ht : (env.yamlFiles p).train = some relT)
    (hrt : isAbsPath relT = false)
    (hv : (env.yamlFiles p).val = some relV)
    (hrv : isAbsPath relV = false)
    (hne : env.tempName ≠ p) :
    (engineExportRun env modelName "int8" device (some p)).yamlWrites.map Prod.fst
        = [env.tempName]
    ∧ (∀ w ∈ (engineExportRun env modelName "int8" device (some p)).yamlWrites,
        (w : String × Yaml).2.train = some (env.dirOf p ++ "/" ++ relT)
        ∧ (w : String × Yaml).2.val = some (env.dirOf p ++ "/" ++ relV)
        ∧ (w : String × Yaml).1 ≠ p)
    ∧ (isAbsPath (env.dirOf p) = true →
        isAbsPath (env.dirOf p ++ "/" ++ relT) = true
        ∧ isAbsPath (env.dirOf p ++ "/" ++ relV) = true) := by
  have hw : (engineExportRun env modelName "int8" device (some p)).yamlWrites
      = (exportBody env modelName "int8" device (some p)).1.yamlWrites := by
    simp only [engineExportRun]
    exact (exportFinally_fields _ _).2.2.2.2
  have hb : (exportBody env modelName "int8" device (some p)).1.yamlWrites
      = [(env.tempName, resolveCalib (env.yamlFiles p) (env.dirOf p))] := by
    simp [exportBody, hm, hp, exportProcPhase_yamlWrites]
  have hdt : (resolveCalib (env.yamlFiles p) (env.dirOf p)).train
      = some (env.dirOf p ++ "/" ++ relT) := by
    rcases hpath : (env.yamlFiles p).path with _ | q <;>
      simp [resolveCalib, hpath, ht, hv, hrt, hrv, pJoin]
  have hdv : (resolveCalib (env.yamlFiles p) (env.dirOf p)).val
      = some (env.dirOf p ++ "/" ++ relV) := by
    rcases hpath : (env.yamlFiles p).path with _ | q <;>
      simp [resolveCalib, hpath, ht, hv, hrt, hrv, pJoin]
  rw [hw, hb]
  refine ⟨rfl, ?_, ?_⟩
  · intro w hwmem
    rw [List.mem_singleton] at hwmem
    subst hwmem
    exact ⟨hdt, hdv, hne⟩
  · intro habs
    exact ⟨isAbsPath_append _ relT (isAbsPath_append _ "/" habs),
      isAbsPath_append _ relV (isAbsPath_append _ "/" habs)⟩

/-- Witness for `exportTask_calibration_resolution` at a concrete
descriptor (`sampleYaml`, directory `/data`). -/
theorem exportTask_calibration_resolution_witness :
    (engineExportRun envOk "m" "int8" "cuda:0" (some "/data/calib.yaml")).yamlWrites.map
        Prod.fst = [envOk.tempName]
    ∧ (∀ w ∈ (engineExportRun envOk "m" "int8" "cuda:0" (some "/data/calib.yaml")).yamlWrites,
        (w : String × Yaml).2.train
            = some (envOk.dirOf "/data/calib.yaml" ++ "/" ++ "images/train")
        ∧ (w : String × Yaml).2.val
            = some (envOk.dirOf "/data/calib.yaml" ++ "/" ++ "images/val")
        ∧ (w : String × Yaml).1 ≠ "/data/calib.yaml") := by
  have h := exportTask_calibration_resolution envOk "m" "cuda:0" "/data/calib.yaml"
    "images/train" "images/val" (by decide) (by decide) rfl (by decide) rfl (by decide)
    (by decide)
  exact ⟨h.1, h.2.1⟩

/-- The generic engine name and the precision-tagged name differ. -/
theorem generic_ne_renamed (wd mn prec : String) :
    wd ++ "/" ++ mn ++ ".engine" ≠ wd ++ "/" ++ mn ++ "-" ++ prec ++ ".engine" := by
  intro h
  have hl := congrArg String.length h
  have h1 : ("-" : String).length = 1 := rfl
  simp only [String.length_append, h1] at hl
  omega

/-- Regrouping of the renamed engine path produced by the rename step. -/
theorem renamed_eq (wd mn prec : String) :
    wd ++ "/" ++ (mn ++ "-" ++ prec ++ ".engine")
      = wd ++ "/" ++ mn ++ "-" ++ prec ++ ".engine" := by
  simp [String.append_assoc]

/-- Membership in the post-subprocess filesystem. -/
theorem mem_procFsAfter (env : ExportEnv) (mn : String) (fsPre : FS) (x : String) :
    x ∈ procFsAfter env mn fsPre
      ↔ (env.procCreatesEngine = true ∧ x = env.weightsDir ++ "/" ++ mn ++ ".engine")
        ∨ x ∈ fsPre := by
  unfold procFsAfter
  cases h : env.procCreatesEngine <;> simp [h]

/-- Outcome of the subprocess phase when the process does not raise:
exit 0 with the generic artifact present yields success with the
artifact renamed; exit 0 without it yields the artifact-not-produced
failure with the filesystem untouched; non-zero exit yields the failure
outcome with no rename. -/
theorem exportProcPhase_spec (env : ExportEnv) (mn prec : String)
    (cmd outs : List String) (fsPre : FS) (tw : List (String × Yaml))
    (hraise : env.procRaises = none) :
    (exportProcPhase env mn prec cmd outs fsPre tw).procStarted = true
    ∧ (env.procExit = 0 →
        (env.procCreatesEngine = true
          ∨ (env.weightsDir ++ "/" ++ mn ++ ".engine") ∈ fsPre) →
        (exportProcPhase env mn prec cmd outs fsPre tw).success = true
        ∧ (exportProcPhase env mn prec cmd outs fsPre tw).message
            = "Engine build successful."
        ∧ (env.weightsDir ++ "/" ++ mn ++ "-" ++ prec ++ ".engine")
            ∈ (exportProcPhase env mn prec cmd outs fsPre tw).fs
        ∧ (env.weightsDir ++ "/" ++ mn ++ ".engine")
            ∉ (exportProcPhase env mn prec cmd outs fsPre tw).fs)
    ∧ (env.procExit = 0 → env.procCreatesEngine = false →
        (env.weightsDir ++ "/" ++ mn ++ ".engine") ∉ fsPre →
        (exportProcPhase env mn prec cmd outs fsPre tw).success = false
        ∧ (exportProcPhase env mn prec cmd outs fsPre tw).message
            = "Failed to create TensorRT engine."
        ∧ (exportProcPhase env mn prec cmd outs fsPre tw).fs = fsPre)
    ∧ (env.procExit ≠ 0 →
        (exportProcPhase env mn prec cmd outs fsPre tw).success = false
        ∧ (exportProcPhase env mn prec cmd outs fsPre tw).message
            = "Engine build failed."
        ∧ ((env.weightsDir ++ "/" ++ mn ++ "-" ++ prec ++ ".engine") ∉ fsPre →
            (env.weightsDir ++ "/" ++ mn ++ "-" ++ prec ++ ".engine")
              ∉ (exportProcPhase env mn prec cmd outs fsPre tw).fs)
        ∧ ((env.weightsDir ++ "/" ++ mn ++ ".engine") ∈ fsPre →
            (env.weightsDir ++ "/" ++ mn ++ ".engine")
              ∈ (exportProcPhase env mn prec cmd outs fsPre tw).fs)) := by
  unfold exportProcPhase
  rw [hraise]
  dsimp only
  refine ⟨?_, ?_, ?_, ?_⟩
  · repeat' split
    all_goals rfl
  · intro h0 hart
    have hgen : (env.weightsDir ++ "/" ++ mn ++ ".engine") ∈ procFsAfter env mn fsPre := by
      rw [mem_procFsAfter]
      rcases hart with hf | hmem
      · exact Or.inl ⟨hf, rfl⟩
      · exact Or.inr hmem
    rw [if_pos h0, if_pos hgen]
    refine ⟨rfl, rfl, ?_, ?_⟩
    · rw [renamed_eq]
      exact List.mem_cons_self _ _
    · rw [renamed_eq]
      simp [List.mem_filter, generic_ne_renamed env.weightsDir mn prec]
  · intro h0 hflag hmem
    have hng : (env.weightsDir ++ "/" ++ mn ++ ".engine") ∉ procFsAfter env mn fsPre := by
      simp [mem_procFsAfter, hflag, hmem]
    rw [if_pos h0, if_neg hng]
    exact ⟨rfl, rfl, by simp [procFsAfter, hflag]⟩
  · intro h0
    rw [if_neg h0]
    refine ⟨rfl, rfl, ?_, ?_⟩
    · intro hnr
      simp [mem_procFsAfter, hnr, (generic_ne_renamed env.weightsDir mn prec).symm]
    · intro hge
      exact (mem_procFsAfter env mn fsPre _).mpr (Or.inr hge)

/-- When the preconditions hold, the `try` body reaches the subprocess
phase; the filesystem it starts from extends `env.fs` by at most the
temporary calibration file, and the recorded temporary name can only be
`env.tempName`. -/
theorem exportBody_started (env : ExportEnv) (modelName precision device : String)
    (calib : Option String)
    (hm : (env.weightsDir ++ "/" ++ modelName ++ ".pt") ∈ env.fs)
    (hcal : precision = "int8" → ∃ p, calib = some p ∧ p ∈ env.fs) :
    ∃ cmd outs fsPre tw tv,
      exportBody env modelName precision device calib
        = (exportProcPhase env modelName precision cmd outs fsPre tw, tv)
      ∧ (∀ x : String, x ∈ env.fs → x ∈ fsPre)
      ∧ (∀ x : String, x ∈ fsPre → x = env.tempName ∨ x ∈ env.fs)
      ∧ (∀ t, tv = some t → t = env.tempName) := by
  by_cases h16 : precision = "fp16"
  · subst h16
    refine ⟨["yolo", "export", "model=" ++ (env.weightsDir ++ "/" ++ modelName ++ ".pt"),
        "format=engine", "device=" ++ device] ++ ["half"],
      ["Starting to build TensorRT engine for " ++ modelName ++ " at " ++ "fp16"
        ++ " precision..."],
      env.fs, [], none, ?_, fun x hx => hx, fun x hx => Or.inr hx,
      fun t ht => by cases ht⟩
    simp only [exportBody]
    rw [if_pos hm]
    simp
  · by_cases h8 : precision = "int8"
    · subst h8
      obtain ⟨p, hcp, hpfs⟩ := hcal rfl
      subst hcp
      refine ⟨["yolo", "export", "model=" ++ (env.weightsDir ++ "/" ++ modelName ++ ".pt"),
          "format=engine", "device=" ++ device] ++ ["int8", "data=" ++ env.tempName],
        ["Starting to build TensorRT engine for " ++ modelName ++ " at " ++ "int8"
          ++ " precision..."],
        env.tempName :: env.fs,
        [(env.tempName, resolveCalib (env.yamlFiles p) (env.dirOf p))],
        some env.tempName, ?_, ?_, ?_, ?_⟩
      · simp only [exportBody]
        rw [if_pos hm]
        simp [hpfs]
      · exact fun x hx => List.mem_cons_of_mem _ hx
      · intro x hx
        rcases List.mem_cons.mp hx with h | h
        · exact Or.inl h
        · exact Or.inr h
      · intro t ht
        cases ht
        rfl
    · refine ⟨["yolo", "export", "model=" ++ (env.weightsDir ++ "/" ++ modelName ++ ".pt"),
          "format=engine", "device=" ++ device],
        ["Starting to build TensorRT engine for " ++ modelName ++ " at " ++ precision
          ++ " precision..."],
        env.fs, [], none, ?_, fun x hx => hx, fun x hx => Or.inr hx,
        fun t ht => by cases ht⟩
      simp only [exportBody]
      rw [if_pos hm, if_neg h16, if_neg h8]

/-- C3: a compile-task run that starts the compiler subprocess (weight
file present, subprocess does not raise, int8 preconditions satisfied
when applicable): on exit code 0 with the generic `<stem>.engine`
present it renames the artifact to `<stem>-<precision>.engine` and
reports success; on exit code 0 without the artifact it reports the
artifact-not-produced failure; on non-zero exit it reports failure and
performs no rename.  (`env.tempName` is the fresh path `tempfile`
returns, distinct from the engine artifacts.) -/
theorem exportTask_rename (env : ExportEnv) (modelName precision device : String)
    (calib : Option String)
    (hm : (env.weightsDir ++ "/" ++ modelName ++ ".pt") ∈ env.fs)
    (hraise : env.procRaises = none)
    (hcal : precision = "int8" → ∃ p, calib = some p ∧ p ∈ env.fs)
    (hg : env.tempName ≠ env.weightsDir ++ "/" ++ modelName ++ ".engine")
    (hn : env.tempName
        ≠ env.weightsDir ++ "/" ++ modelName ++ "-" ++ precision ++ ".engine") :
    (engineExportRun env modelName precision device calib).procStarted = true
    ∧ (env.procExit = 0 →
        (env.procCreatesEngine = true
          ∨ (env.weightsDir ++ "/" ++ modelName ++ ".engine") ∈ env.fs) →
        (engineExportRun env modelName precision device calib).success = true
        ∧ (engineExportRun env modelName precision device calib).message
            = "Engine build successful."
        ∧ (env.weightsDir ++ "/" ++ modelName ++ "-" ++ precision ++ ".engine")
            ∈ (engineExportRun env modelName precision device calib).fs
        ∧ (env.weightsDir ++ "/" ++ modelName ++ ".engine")
            ∉ (engineExportRun env modelName precision device calib).fs)
    ∧ (env.procExit = 0 → env.procCreatesEngine = false →
        (env.weightsDir ++ "/" ++ modelName ++ ".engine") ∉ env.fs →
        (engineExportRun env modelName precision device calib).success = false
        ∧ (engineExportRun env modelName precision device calib).message
            = "Failed to create TensorRT engine.")
    ∧ (env.procExit ≠ 0 →
        (engineExportRun env modelName precision device calib).success = false
        ∧ (engineExportRun env modelName precision device calib).message
            = "Engine build failed."
        ∧ ((env.weightsDir ++ "/" ++ modelName ++ "-" ++ precision ++ ".engine")
              ∉ env.fs →
            (env.weightsDir ++ "/" ++ modelName ++ "-" ++ precision ++ ".engine")
              ∉ (engineExportRun env modelName precision device calib).fs)
        ∧ ((env.weightsDir ++ "/" ++ modelName ++ ".engine") ∈ env.fs →
            (env.weightsDir ++ "/" ++ modelName ++ ".engine")
              ∈ (engineExportRun env modelName precision device calib).fs)) := by
  obtain ⟨cmd, outs, fsPre, tw, tv, hbody, hsub, hsup, htv⟩ :=
    exportBody_started env modelName precision device calib hm hcal
  have hrun : engineExportRun env modelName precision device calib
      = exportFinally (exportProcPhase env modelName precision cmd outs fsPre tw) tv := by
    simp only [engineExportRun, hbody]
  have hspec := exportProcPhase_spec env modelName precision cmd outs fsPre tw hraise
  have hfields := exportFinally_fields
    (exportProcPhase env modelName precision cmd outs fsPre tw) tv
  have hxr : ∀ t, tv = some t →
      (env.weightsDir ++ "/" ++ modelName ++ "-" ++ precision ++ ".engine") ≠ t :=
    fun t ht => (htv t ht ▸ hn.symm : _)
  have hxg : ∀ t, tv = some t →
      (env.weightsDir ++ "/" ++ modelName ++ ".engine") ≠ t :=
    fun t ht => (htv t ht ▸ hg.symm : _)
  rw [hrun]
  refine ⟨?_, ?_, ?_, ?_⟩
  · rw [hfields.2.2.1]
    exact hspec.1
  · intro h0 hart
    have hs := hspec.2.1 h0 (hart.imp id (hsub _))
    refine ⟨?_, ?_, ?_, ?_⟩
    · rw [hfields.1]; exact hs.1
    · rw [hfields.2.1]; exact hs.2.1
    · exact (mem_exportFinally _ _ _ hxr).mpr hs.2.2.1
    · intro hmem
      exact hs.2.2.2 ((mem_exportFinally _ _ _ hxg).mp hmem)
  · intro h0 hflag hgm
    have hng : (env.weightsDir ++ "/" ++ modelName ++ ".engine") ∉ fsPre := by
      intro hx
      rcases hsup _ hx with h | h
      · exact hg (h.symm ▸ rfl)
      · exact hgm h
    have hs := hspec.2.2.1 h0 hflag hng
    exact ⟨by rw [hfields.1]; exact hs.1, by rw [hfields.2.1]; exact hs.2.1⟩
  · intro h0
    have hs := hspec.2.2.2 h0
    refine ⟨by rw [hfields.1]; exact hs.1, by rw [hfields.2.1]; exact hs.2.1, ?_, ?_⟩
    · intro hrn hmem
      have hnrPre : (env.weightsDir ++ "/" ++ modelName ++ "-" ++ precision ++ ".engine")
          ∉ fsPre := by
        intro hx
        rcases hsup _ hx with h | h
        · exact hn (h.symm ▸ rfl)
        · exact hrn h
      exact hs.2.2.1 hnrPre ((mem_exportFinally _ _ _ hxr).mp hmem)
    · intro hge
      exact (mem_exportFinally _ _ _ hxg).mpr (hs.2.2.2 (hsub _ hge))

/-- Witness for `exportTask_rename`: a concrete fp16 run with exit code
0 that produces the generic artifact; the run succeeds and the artifact
is renamed. -/
theorem exportTask_rename_witness :
    ("/w" ++ "/" ++ "m" ++ ".pt") ∈ envOk.fs
    ∧ envOk.procExit = 0
    ∧ (engineExportRun envOk "m" "fp16" "cuda:0" none).success = true
    ∧ ("/w" ++ "/" ++ "m" ++ "-" ++ "fp16" ++ ".engine")
        ∈ (engineExportRun envOk "m" "fp16" "cuda:0" none).fs
    ∧ ("/w" ++ "/" ++ "m" ++ ".engine")
        ∉ (engineExportRun envOk "m" "fp16" "cuda:0" none).fs := by
  have h := exportTask_rename envOk "m" "fp16" "cuda:0" none (by decide) rfl
    (fun hp => absurd hp (by decide)) (by decide) (by decide)
  have h1 := h.2.1 rfl (Or.inl rfl)
  exact ⟨by decide, rfl, h1.1, h1.2.2.1, h1.2.2.2⟩

/-- On a non-zero exit code the subprocess phase emits the progress
line carrying the exit code. -/
theorem exportProcPhase_nonzero_outputs (env : ExportEnv) (mn prec : String)
    (cmd outs : List String) (fsPre : FS) (tw : List (String × Yaml))
    (hraise : env.procRaises = none) (h0 : env.procExit ≠ 0) :
    ("Engine build failed with exit code " ++ toString env.procExit ++ ".")
      ∈ (exportProcPhase env mn prec cmd outs fsPre tw).outputs := by
  unfold exportProcPhase
  rw [hraise]
  dsimp only
  rw [if_neg h0]
  simp

/-- A string built around a middle segment contains that segment. -/
theorem strContains_middle (pre post mid : String) :
    strContains (pre ++ mid ++ post) mid = true := by
  unfold strContains
  apply decide_eq_true
  exact ⟨pre.toList, post.toList, by simp [String.toList, List.append_assoc]⟩

/-- C8 counterexample: a concrete run whose subprocess exits with code
1 — the terminal outcome is a failure, but its message is the fixed
string `Engine build failed.`, which does not contain the exit code
(the code appears only in a streamed progress line). -/
theorem exitCode_not_in_done_message :
    envFail.procExit = 1
    ∧ (engineExportRun envFail "m" "fp32" "cuda:0" none).success = false
    ∧ (engineExportRun envFail "m" "fp32" "cuda:0" none).message
        = "Engine build failed."
    ∧ strContains (engineExportRun envFail "m" "fp32" "cuda:0" none).message
        (toString envFail.procExit) = false := by
  decide

/-- C8 (amended): whenever the compiler subprocess exits with a
non-zero code, the compile task's terminal outcome is a failure; the
exit code is surfaced in the streamed progress line
`Engine build failed with exit code N.` (which contains the code's
decimal representation), while the terminal outcome's message is the
fixed string `Engine build failed.`. -/
theorem exportTask_nonzero_exit (env : ExportEnv)
    (modelName precision device : String) (calib : Option String)
    (hm : (env.weightsDir ++ "/" ++ modelName ++ ".pt") ∈ env.fs)
    (hraise : env.procRaises = none)
    (hcal : precision = "int8" → ∃ p, calib = some p ∧ p ∈ env.fs)
    (hexit : env.procExit ≠ 0) :
    (engineExportRun env modelName precision device calib).success = false
    ∧ (engineExportRun env modelName precision device calib).message
        = "Engine build failed."
    ∧ ("Engine build failed with exit code " ++ toString env.procExit ++ ".")
        ∈ (engineExportRun env modelName precision device calib).outputs
    ∧ strContains
        ("Engine build failed with exit code " ++ toString env.procExit ++ ".")
        (toString env.procExit) = true := by
  obtain ⟨cmd, outs, fsPre, tw, tv, hbody, hsub, hsup, htv⟩ :=
    exportBody_started env modelName precision device calib hm hcal
  have hrun : engineExportRun env modelName precision device calib
      = exportFinally (exportProcPhase env modelName precision cmd outs fsPre tw) tv := by
    simp only [engineExportRun, hbody]
  have hfields := exportFinally_fields
    (exportProcPhase env modelName precision cmd outs fsPre tw) tv
  have hs := (exportProcPhase_spec env modelName precision cmd outs fsPre tw hraise).2.2.2
    hexit
  refine ⟨by rw [hrun, hfields.1]; exact hs.1,
    by rw [hrun, hfields.2.1]; exact hs.2.1, ?_, strContains_middle _ _ _⟩
  rw [hrun, hfields.2.2.2.1]
  exact exportProcPhase_nonzero_outputs env modelName precision cmd outs fsPre tw
    hraise hexit

/-- Witness for `exportTask_nonzero_exit` at a concrete input. -/
theorem exportTask_nonzero_exit_witness :
    ("/w" ++ "/" ++ "m" ++ ".pt") ∈ envFail.fs
    ∧ envFail.procRaises = none
    ∧ envFail.procExit ≠ 0
    ∧ (engineExportRun envFail "m" "fp32" "cuda:0" none).message
        = "Engine build failed."
    ∧ ("Engine build failed with exit code " ++ toString envFail.procExit ++ ".")
        ∈ (engineExportRun envFail "m" "fp32" "cuda:0" none).outputs := by
  have h := exportTask_nonzero_exit envFail "m" "fp32" "cuda:0" none (by decide) rfl
    (fun hp => absurd hp (by decide)) (by decide)
  exact ⟨by decide, rfl, by decide, h.2.1, h.2.2.1⟩

end ModelManagerRepo
